import Mathlib

/-!
Verification development for the stat-group configuration engine of
isi_data_insights_connector (isi_data_insights_config.py).

The Python source is shallowly embedded: pure computations become Lean
functions, the process-global mutable caches (g_cluster_auth_data,
g_cluster_names_and_versions) become an explicit state record threaded
through the functions, `sys.exit(1)` becomes a `Res.fatal` outcome, and
every observable side effect (interactive prompt, auth probe, identity
query, warning, daemon registration) is recorded in an event trace.
Remote-API behaviour (what the cluster answers) is an `Env` of oracles.
Cluster API versions are represented in tenths (72 means 7.2, 80 means
8.0) since the source only ever manipulates one-decimal version numbers
parsed from release strings.

The daemon object (isi_data_insights_daemon.py, not part of the analysed
source) is modelled from the spec: its registration interface
registerStatGroup / add_stats accepts one StatGroupConfig per emitted
bucket and lists them back as a sequence, so it is modelled as a list of
StatsConfig records that add_stats appends to.
-/

namespace IsiDataInsights

/-- Constant ONE_SEC from the source: the number of seconds between updates
for stats that are continually kept up-to-date. -/
def ONE_SEC : Int := 1

/-- Constant MIN_UPDATE_INTERVAL from the source: the default minimum update
interval floor. (The source can override the global at runtime; functions
below take the current floor as an explicit argument.) -/
def MIN_UPDATE_INTERVAL : Int := 30

/-- One entry of StatMetadata.policies: a named polling policy with its
interval in seconds. -/
structure StatPolicy where
  name : String
  interval : Int
deriving Repr, DecidableEq

/-- Per-stat metadata as returned by the external metadata service:
a key, an optional default cache time and a list of policies. -/
structure StatMetadata where
  key : String
  default_cache_time : Option Int
  policies : List StatPolicy
deriving Repr, DecidableEq

/-- Python truthiness of the optional default_cache_time field:
None and 0 are falsy, any other integer is truthy. -/
def cacheTimeTruthy : Option Int → Bool
  | none => false
  | some n => decide (n ≠ 0)

/-- The loop body of the policy scan in _compute_stat_group_update_intervals:
starting from the current smallest_interval, each policy either replaces a
sentinel -1 or takes the minimum with the accumulator. -/
def policyStep (acc : Int) (p : StatPolicy) : Int :=
  if acc = -1 then p.interval else min p.interval acc

/-- The per-stat interval computation of
_compute_stat_group_update_intervals (source lines 258-284): cache_time
starts at -1; a truthy default_cache_time contributes
(default_cache_time + 1) * multiplier; a non-empty policy list folds
policyStep over the policies starting FROM THE CURRENT cache_time and the
result is multiplied by the multiplier; a remaining -1 falls back to
ONE_SEC * multiplier. -/
def computeStatInterval (m : StatMetadata) (update_interval_multiplier : Int) : Int :=
  let ct1 : Int :=
    if cacheTimeTruthy m.default_cache_time then
      (m.default_cache_time.getD 0 + 1) * update_interval_multiplier
    else (-1)
  let ct2 : Int :=
    if m.policies ≠ [] then
      (m.policies.foldl policyStep ct1) * update_interval_multiplier
    else ct1
  if ct2 = -1 then ONE_SEC * update_interval_multiplier else ct2

/-- Modelled from the spec (section 4.3), for refinement comparison only:
the minimum of all policy intervals of a non-empty policy list. -/
def smallestPolicyInterval : List StatPolicy → Int
  | [] => 0
  | p :: rest => rest.foldl (fun a q => min q.interval a) p.interval

/-- Modelled from the spec (section 4.3), for refinement comparison only:
the spec's interval-resolution algorithm, in which a non-empty policy list
supersedes (does not merge with) the cache-time candidate. -/
def resolveIntervalSpec (m : StatMetadata) (mult : Int) : Int :=
  if m.policies ≠ [] then smallestPolicyInterval m.policies * mult
  else if cacheTimeTruthy m.default_cache_time then
    (m.default_cache_time.getD 0 + 1) * mult
  else ONE_SEC * mult

/-- The authentication triple stored per cluster address in
g_cluster_auth_data; each field is None until known. -/
structure AuthTriple where
  username : Option String
  password : Option String
  verify_ssl : Option Bool
deriving Repr, DecidableEq

/-- ClusterConfig record handed to the daemon (constructor arguments of the
ClusterConfig call in _build_cluster_configs; version in tenths). -/
structure ClusterConfig where
  address : String
  username : String
  password : String
  version : Int
  name : String
  verify_ssl : Bool
deriving Repr, DecidableEq

/-- StatsConfig record handed to the daemon by _configure_stat_group. -/
structure StatsConfig where
  cluster_configs : List ClusterConfig
  stats : List String
  update_interval : Int
deriving Repr, DecidableEq

/-- Observable side effects of a configuration run, in order. -/
inductive Event where
  | promptUser (addr : String)
  | promptPassword (addr : String)
  | promptSSL (addr : String)
  | probe (addr : String)
  | queryName (addr : String)
  | queryVersion (addr : String)
  | queryMetadata (addr : String)
  | warnLowInterval (interval : Int)
  | emit (sc : StatsConfig)
deriving Repr, DecidableEq

/-- The process-global mutable state of the source: the two caches plus the
event trace accumulated so far. -/
structure St where
  authData : List (String × AuthTriple)
  namesVersions : List (String × (String × Int))
  trace : List Event
deriving Repr, DecidableEq

/-- Outcome of a source function: a normal return with the new state, or a
fatal process abort (sys.exit(1)) with the state at the moment of exit. -/
inductive Res (α : Type) where
  | ok (a : α) (s : St)
  | fatal (s : St)
deriving Repr, DecidableEq

/-- Oracles describing the external world: what the interactive user types
and what the remote cluster APIs answer. -/
structure Env where
  promptUserResult : String → String
  promptPasswordResult : String → String
  promptSSLResult : String → Bool
  probeOk : String → Bool
  nameResult : String → Except Unit String
  hasGetClusterVersion : Bool
  versionResult : String → Except Unit (List String)
  metadataResult : String → List String → List StatMetadata

/-- Python dict lookup on an association list. -/
def dictGet {β : Type} : List (String × β) → String → Option β
  | [], _ => none
  | (k, v) :: rest, a => if k = a then some v else dictGet rest a

/-- Python dict assignment on an association list (overwrite or append). -/
def dictSet {β : Type} : List (String × β) → String → β → List (String × β)
  | [], a, t => [(a, t)]
  | (k, v) :: rest, a, t =>
    if k = a then (a, t) :: rest else (k, v) :: dictSet rest a t

/-- Append one event to the trace. -/
def pushEvent (s : St) (e : Event) : St :=
  { s with trace := s.trace ++ [e] }

/-- Embedding of _verify_cluster_auth_data: probe the cluster with a
metadata query for the cluster.health stat key; an API error is fatal.
(The probe's internal credential lookup finds the just-stored complete
triple and has no observable effect, so only the probe itself is recorded.) -/
def verifyClusterAuthData (env : Env) (cluster_address : String) (s : St) : Res Unit :=
  let s1 := pushEvent s (Event.probe cluster_address)
  if env.probeOk cluster_address then Res.ok () s1 else Res.fatal s1

/-- Embedding of _add_cluster_auth_data: store the triple in the auth cache
and, when all three fields are known, verify it against the cluster. -/
def addClusterAuthData (env : Env) (cluster_address : String)
    (username password : Option String) (verify_ssl : Option Bool) (s : St) : Res Unit :=
  let s1 := { s with
    authData := dictSet s.authData cluster_address ⟨username, password, verify_ssl⟩ }
  match username, password, verify_ssl with
  | some _, some _, some _ => verifyClusterAuthData env cluster_address s1
  | _, _, _ => Res.ok () s1

/-- The prompting step of _get_cluster_auth_data for a missing or
incomplete cache entry: keep the known fields and prompt for each missing
one, returning the completed triple together with the prompt events in
source order. -/
def promptMissing (env : Env) (cluster : String) (cur : Option AuthTriple) :
    (String × String × Bool) × List Event :=
  let u0 : Option String := match cur with
    | some t => t.username
    | none => none
  let p0 : Option String := match cur with
    | some t => t.password
    | none => none
  let v0 : Option Bool := match cur with
    | some t => t.verify_ssl
    | none => none
  let x1 : String × List Event := match u0 with
    | some u => (u, [])
    | none => (env.promptUserResult cluster, [Event.promptUser cluster])
  let x2 : String × List Event := match p0 with
    | some p => (p, [])
    | none => (env.promptPasswordResult cluster, [Event.promptPassword cluster])
  let x3 : Bool × List Event := match v0 with
    | some v => (v, [])
    | none => (env.promptSSLResult cluster, [Event.promptSSL cluster])
  ((x1.1, x2.1, x3.1), x1.2 ++ x2.2 ++ x3.2)

/-- The KeyError branch of _get_cluster_auth_data: prompt for the missing
fields of the (possibly absent) cache entry, then store and verify the
completed triple. -/
def getClusterAuthDataPrompt (env : Env) (cluster : String) (cur : Option AuthTriple)
    (s : St) : Res (String × String × Bool) :=
  let pm := promptMissing env cluster cur
  let s1 := { s with trace := s.trace ++ pm.2 }
  match addClusterAuthData env cluster (some pm.1.1) (some pm.1.2.1) (some pm.1.2.2) s1 with
  | Res.ok _ s2 => Res.ok pm.1 s2
  | Res.fatal s2 => Res.fatal s2

/-- Embedding of _get_cluster_auth_data: return the cached triple when it is
complete; otherwise prompt for each missing field and store (and thereby
verify) the completed triple. -/
def getClusterAuthData (env : Env) (cluster : String) (s : St) :
    Res (String × String × Bool) :=
  match dictGet s.authData cluster with
  | some ⟨some u, some p, some v⟩ => Res.ok (u, p, v) s
  | cur => getClusterAuthDataPrompt env cluster cur s

/-- Embedding of _query_cluster_name: ask for the cluster identity and fall
back to the raw address when the query raises an API error (non-fatal). -/
def queryClusterName (env : Env) (cluster_address : String) (s : St) : Res String :=
  let s1 := pushEvent s (Event.queryName cluster_address)
  match env.nameResult cluster_address with
  | Except.ok n => Res.ok n s1
  | Except.error _ => Res.ok cluster_address s1

/-- Parse of float(release[1:4]) guarded by release.startswith('v'), in
tenths: a release string of shape vX.Y... yields 10*X+Y and a release of
shape vXY.... yields 100*X+10*Y (the three-character slice ends at the
dot); a string not starting with 'v' yields none (the node is skipped).
A release starting with 'v' whose slice is not numeric is modelled as
skipped as well (the source would raise an uncaught ValueError there);
the claims only concern well-formed release strings. -/
def parseRelease (s : String) : Option Int :=
  match s.data with
  | 'v' :: a :: '.' :: b :: _ =>
    if a.isDigit ∧ b.isDigit then
      some (10 * (Int.ofNat a.toNat - 48) + (Int.ofNat b.toNat - 48))
    else none
  | 'v' :: a :: b :: '.' :: _ =>
    if a.isDigit ∧ b.isDigit then
      some ((10 * (Int.ofNat a.toNat - 48) + (Int.ofNat b.toNat - 48)) * 10)
    else none
  | _ => none

/-- The node-version loop of _query_cluster_version: scan the reported node
releases with the running version (initially 8.0); the first parsed node
version strictly below the running version is taken and the loop breaks. -/
def versionScan : List String → Int → Int
  | [], version => version
  | n :: rest, version =>
    match parseRelease n with
    | some node_version =>
      if node_version < version then node_version else versionScan rest version
    | none => versionScan rest version

/-- Cluster version derived from node-level release strings, starting from
the 8.0 assumption (80 tenths). -/
def versionFromNodes (nodes : List String) : Int :=
  versionScan nodes 80

/-- Embedding of _query_cluster_version: when the installed SDK has
get_cluster_version, query it and scan the node releases, assuming 7.2 on
an API error; without that capability assume 7.2 directly. -/
def queryClusterVersion (env : Env) (cluster_address : String) (s : St) : Res Int :=
  let s1 := pushEvent s (Event.queryVersion cluster_address)
  if env.hasGetClusterVersion then
    match env.versionResult cluster_address with
    | Except.ok nodes => Res.ok (versionFromNodes nodes) s1
    | Except.error _ => Res.ok 72 s1
  else Res.ok 72 s1

/-- The name-and-version step of _build_cluster_configs for one cluster:
return the cached pair when present, otherwise query the display name and
the version and cache the pair. -/
def resolveIdentity (env : Env) (cluster : String) (s : St) : Res (String × Int) :=
  match dictGet s.namesVersions cluster with
  | some (cluster_name, version) => Res.ok (cluster_name, version) s
  | none =>
    match queryClusterName env cluster s with
    | Res.fatal s2 => Res.fatal s2
    | Res.ok cluster_name s2 =>
      match queryClusterVersion env cluster s2 with
      | Res.fatal s3 => Res.fatal s3
      | Res.ok version s3 =>
        Res.ok (cluster_name, version)
          { s3 with namesVersions :=
              dictSet s3.namesVersions cluster (cluster_name, version) }

/-- Embedding of _build_cluster_configs: for each cluster in order, resolve
its auth triple, then its name and version (from the cache when present,
otherwise by querying and caching), and collect a ClusterConfig. -/
def buildClusterConfigs (env : Env) : List String → St → Res (List ClusterConfig)
  | [], s => Res.ok [] s
  | cluster :: rest, s =>
    match getClusterAuthData env cluster s with
    | Res.fatal s1 => Res.fatal s1
    | Res.ok (username, password, verify_ssl) s1 =>
      match resolveIdentity env cluster s1 with
      | Res.fatal s2 => Res.fatal s2
      | Res.ok (cluster_name, version) s2 =>
        match buildClusterConfigs env rest s2 with
        | Res.fatal s3 => Res.fatal s3
        | Res.ok configs s3 =>
          Res.ok (ClusterConfig.mk cluster username password version
            cluster_name verify_ssl :: configs) s3

/-- Embedding of _configure_stat_group: build the cluster configs, clamp an
update interval below the floor to the floor with a single warning, then
register the StatsConfig with the daemon (modelled as appending to the
daemon's list of registered stat groups, recorded as an emit event). -/
def configureStatGroup (env : Env) (min_update_interval : Int) (update_interval : Int)
    (cluster_list stats_list : List String) (daemon : List StatsConfig) (s : St) :
    Res (List StatsConfig) :=
  match buildClusterConfigs env cluster_list s with
  | Res.fatal s1 => Res.fatal s1
  | Res.ok cluster_configs s1 =>
    let (ui, s2) : Int × St :=
      if update_interval < min_update_interval then
        (min_update_interval, pushEvent s1 (Event.warnLowInterval update_interval))
      else (update_interval, s1)
    let stats_config : StatsConfig := ⟨cluster_configs, stats_list, ui⟩
    Res.ok (daemon ++ [stats_config]) (pushEvent s2 (Event.emit stats_config))

/-- Embedding of _query_stats_metadata: resolve the cluster's auth triple
and ask the stats client for the metadata of the given stat names. -/
def queryStatsMetadata (env : Env) (cluster : String) (stat_names : List String) (s : St) :
    Res (List StatMetadata) :=
  match getClusterAuthData env cluster s with
  | Res.fatal s1 => Res.fatal s1
  | Res.ok _ s1 =>
    Res.ok (env.metadataResult cluster stat_names)
      (pushEvent s1 (Event.queryMetadata cluster))

/-- The update_intervals dict: interval value mapped to the pair of the
cluster set and the stat-key set of its bucket (sets modelled as
duplicate-free lists). -/
abbrev Buckets : Type := List (Int × (List String × List String))

/-- Python set.add on a list-modelled set: insert if absent. -/
def setAdd (l : List String) (x : String) : List String :=
  if x ∈ l then l else l ++ [x]

/-- The dict update of _compute_stat_group_update_intervals lines 285-292:
add the cluster and the stat key to the bucket of the computed interval,
inserting a fresh bucket when the interval is a new key. -/
def bucketAdd : Buckets → Int → String → String → Buckets
  | [], ct, cluster, statKey => [(ct, ([cluster], [statKey]))]
  | (k, (cs, sts)) :: rest, ct, cluster, statKey =>
    if k = ct then (k, (setAdd cs cluster, setAdd sts statKey)) :: rest
    else (k, (cs, sts)) :: bucketAdd rest ct cluster statKey

/-- The inner metadata loop of _compute_stat_group_update_intervals for one
cluster: bucket every stat of the returned metadata by its computed
interval. -/
def bucketCluster (mult : Int) (cluster : String) (metas : List StatMetadata)
    (ui : Buckets) : Buckets :=
  metas.foldl (fun b m => bucketAdd b (computeStatInterval m mult) cluster m.key) ui

/-- Embedding of _compute_stat_group_update_intervals: for each cluster,
query the stats metadata and bucket each stat by its computed interval
into the caller-supplied update_intervals dict. -/
def computeStatGroupUpdateIntervals (env : Env) (mult : Int) :
    List String → List String → Buckets → St → Res Buckets
  | [], _, ui, s => Res.ok ui s
  | cluster :: rest, stat_names, ui, s =>
    match queryStatsMetadata env cluster stat_names s with
    | Res.fatal s1 => Res.fatal s1
    | Res.ok metas s1 =>
      computeStatGroupUpdateIntervals env mult rest stat_names
        (bucketCluster mult cluster metas ui) s1

/-- A parsed cluster entry of a config-file clusters value: either a bare
address (with an optional trailing verify-ssl boolean) or an address with
an inline username:password pair, whose verify-ssl flag defaults to
False when no trailing boolean is given. -/
inductive ClusterSpec where
  | bare (address : String) (verify_ssl : Option Bool)
  | withCreds (username password address : String) (verify_ssl : Option Bool)
deriving Repr, DecidableEq

/-- Address of a parsed cluster entry. -/
def ClusterSpec.address : ClusterSpec → String
  | .bare a _ => a
  | .withCreds _ _ a _ => a

/-- The per-entry effect of _process_config_file_clusters: store (and for a
complete triple verify) the entry's auth data, returning the address. -/
def processClusterSpec (env : Env) (cs : ClusterSpec) (s : St) : Res String :=
  match cs with
  | .bare a v =>
    match addClusterAuthData env a none none v s with
    | Res.ok _ s1 => Res.ok a s1
    | Res.fatal s1 => Res.fatal s1
  | .withCreds u p a v =>
    match addClusterAuthData env a (some u) (some p) (some (v.getD false)) s with
    | Res.ok _ s1 => Res.ok a s1
    | Res.fatal s1 => Res.fatal s1

/-- Embedding of _process_config_file_clusters over the already-split list
of cluster entries: process each entry and collect the addresses. -/
def processConfigFileClusters (env : Env) : List ClusterSpec → St → Res (List String)
  | [], s => Res.ok [] s
  | c :: rest, s =>
    match processClusterSpec env c s with
    | Res.fatal s1 => Res.fatal s1
    | Res.ok a s1 =>
      match processConfigFileClusters env rest s1 with
      | Res.fatal s2 => Res.fatal s2
      | Res.ok as s2 => Res.ok (a :: as) s2

/-- Python list(set(l)), with the iteration order fixed to first
occurrences (the claims are order-insensitive). -/
def pyUnique (l : List String) : List String :=
  l.foldl setAdd []

/-- The update_interval value of a stat group section after its textual
parse: a computed-mode multiplier (a value starting with an asterisk) or a
fixed interval in seconds. -/
inductive UParam where
  | mult (m : Int)
  | fixed (n : Int)
deriving Repr, DecidableEq

/-- A config-file stat group section after the textual config-file parse:
the optional clusters value (none models a missing clusters option), the
update interval parameter and the whitespace-split stats value. -/
structure FileRequest where
  clusters : Option (List ClusterSpec)
  update_interval : UParam
  stats : List String
deriving Repr

/-- The final loop of _configure_stat_groups_via_file: configure one stat
group per entry of the update_intervals dict. -/
def configureGroups (env : Env) (min_update_interval : Int) :
    Buckets → List StatsConfig → St → Res (List StatsConfig)
  | [], daemon, s => Res.ok daemon s
  | (ui, (cs, sts)) :: rest, daemon, s =>
    match configureStatGroup env min_update_interval ui cs sts daemon s with
    | Res.fatal s1 => Res.fatal s1
    | Res.ok daemon1 s1 => configureGroups env min_update_interval rest daemon1 s1

/-- Embedding of _configure_stat_groups_via_file for one stat group: extend
the global cluster list with the group's own clusters (deduplicating only
in that case), reject an empty cluster list, deduplicate the stat names,
fill a fresh update_intervals dict (from the fixed interval, or by
computing intervals from metadata), and configure one stat group per dict
entry. -/
def configureStatGroupsViaFile (env : Env) (min_update_interval : Int)
    (req : FileRequest) (global_cluster_list : List String)
    (daemon : List StatsConfig) (s : St) : Res (List StatsConfig) :=
  let step1 : Res (List String) :=
    match req.clusters with
    | none => Res.ok global_cluster_list s
    | some specs =>
      match processConfigFileClusters env specs s with
      | Res.fatal s1 => Res.fatal s1
      | Res.ok addrs s1 => Res.ok (pyUnique (global_cluster_list ++ addrs)) s1
  match step1 with
  | Res.fatal s1 => Res.fatal s1
  | Res.ok cluster_list s1 =>
    if cluster_list = [] then Res.fatal s1
    else
      let stat_names := pyUnique req.stats
      let step2 : Res Buckets :=
        match req.update_interval with
        | UParam.mult m =>
          computeStatGroupUpdateIntervals env m cluster_list stat_names [] s1
        | UParam.fixed n => Res.ok [(n, (cluster_list, stat_names))] s1
      match step2 with
      | Res.fatal s2 => Res.fatal s2
      | Res.ok update_intervals s2 =>
        configureGroups env min_update_interval update_intervals daemon s2

/-- The CLI arguments consumed by _configure_stat_groups_via_cli: the raw
comma-delimited clusters string, the list of raw comma-delimited stat
group strings, and the list of update intervals. -/
structure CliArgs where
  clusters : String
  stat_groups : List String
  update_intervals : List Int
deriving Repr

/-- Python str.split(sep) for a single-character separator: splitting the
empty string yields a single empty field. -/
def splitCharAux (sep : Char) : List Char → List Char → List String
  | [], acc => [String.mk acc.reverse]
  | c :: rest, acc =>
    if c = sep then String.mk acc.reverse :: splitCharAux sep rest []
    else splitCharAux sep rest (c :: acc)

/-- Split a string on a separator character, Python-style. -/
def pySplit (s : String) (sep : Char) : List String :=
  splitCharAux sep s.data []

/-- The update-intervals defaulting of _configure_stat_groups_via_cli: an
empty list is replaced by the single current minimum-interval floor. -/
def effectiveUpdateIntervals (min_update_interval : Int) (l : List Int) : List Int :=
  if l = [] then [min_update_interval] else l

/-- The per-group loop of _configure_stat_groups_via_cli: split each stat
group string, reject an empty first stat name, and configure the group at
its paired update interval. -/
def cliGroupsLoop (env : Env) (min_update_interval : Int) :
    List (String × Int) → List String → List StatsConfig → St → Res (List StatsConfig)
  | [], _, daemon, s => Res.ok daemon s
  | (sg, ui) :: rest, cluster_list, daemon, s =>
    let stats_list := pySplit sg ','
    if stats_list.headD "" = "" then Res.fatal s
    else
      match configureStatGroup env min_update_interval ui cluster_list stats_list daemon s with
      | Res.fatal s1 => Res.fatal s1
      | Res.ok daemon1 s1 => cliGroupsLoop env min_update_interval rest cluster_list daemon1 s1

/-- Embedding of _configure_stat_groups_via_cli: default the update
intervals, reject a count mismatch with the stat groups, split and
validate the clusters string, deduplicate it and configure every stat
group. -/
def configureStatGroupsViaCli (env : Env) (min_update_interval : Int)
    (args : CliArgs) (daemon : List StatsConfig) (s : St) : Res (List StatsConfig) :=
  let update_intervals := effectiveUpdateIntervals min_update_interval args.update_intervals
  if update_intervals.length ≠ args.stat_groups.length then Res.fatal s
  else
    let cluster_list := pySplit args.clusters ','
    if cluster_list.headD "" = "" then Res.fatal s
    else
      cliGroupsLoop env min_update_interval (args.stat_groups.zip update_intervals)
        (pyUnique cluster_list) daemon s

/-- Daemon list of a run result (empty when the run aborted). -/
def resDaemon : Res (List StatsConfig) → List StatsConfig
  | Res.ok d _ => d
  | Res.fatal _ => []

/-- Final state of a run result. -/
def resState : Res (List StatsConfig) → St
  | Res.ok _ s => s
  | Res.fatal s => s

/-- Whether a run returned normally. -/
def resIsOk : Res (List StatsConfig) → Bool
  | Res.ok _ _ => true
  | Res.fatal _ => false

/-- Number of auth probes against a given address in a trace. -/
def probeCount (t : List Event) (a : String) : Nat :=
  t.countP (fun e => decide (e = Event.probe a))

/-- Number of low-interval warnings in a trace. -/
def warnCount (t : List Event) : Nat :=
  t.countP (fun e => match e with
    | Event.warnLowInterval _ => true
    | _ => false)

/-- Interval keys of the update_intervals dict. -/
def bucketKeys (b : Buckets) : List Int :=
  b.map Prod.fst

/-- The auth cache holds a complete triple for the address. -/
def completeAuth (ad : List (String × AuthTriple)) (a : String) : Prop :=
  ∃ u p v, dictGet ad a = some ⟨some u, some p, some v⟩

/-- Credential resolution for the address completed no later than the given
trace segment: it was already complete in the starting state, or the
segment contains its auth probe. -/
def credentialResolved (s : St) (t : List Event) (a : String) : Prop :=
  completeAuth s.authData a ∨ Event.probe a ∈ t

/-- Identity resolution for the address completed no later than the given
trace segment: it was already cached in the starting state, or the segment
contains both identity queries. -/
def identityResolved (s : St) (t : List Event) (a : String) : Prop :=
  (∃ nv, dictGet s.namesVersions a = some nv) ∨
    (Event.queryName a ∈ t ∧ Event.queryVersion a ∈ t)

/-- A trace segment containing neither emissions nor warnings. -/
def noEmitNoWarn (t : List Event) : Prop :=
  ∀ e ∈ t, (∀ sc, e ≠ Event.emit sc) ∧ (∀ i, e ≠ Event.warnLowInterval i)

/-- A benign external world: every prompt is answered, every probe and
query succeeds, the installed SDK lacks get_cluster_version (so every
cluster is treated as 7.2), and every stat's metadata is trivial. -/
def envOk : Env where
  promptUserResult := fun _ => "pu"
  promptPasswordResult := fun _ => "pp"
  promptSSLResult := fun _ => true
  probeOk := fun _ => true
  nameResult := fun a => Except.ok ("name-" ++ a)
  hasGetClusterVersion := false
  versionResult := fun _ => Except.ok []
  metadataResult := fun _ stats => stats.map (fun k => ⟨k, none, []⟩)

/-- A world in which every auth probe fails with an API error. -/
def envProbeFail : Env :=
  { envOk with probeOk := fun _ => false }

/-- A world in which the display-name query raises an API error. -/
def envNameFail : Env :=
  { envOk with nameResult := fun _ => Except.error () }

/-- A world with an 8.0 SDK whose version query reports a v7.5.0 node ahead
of a v7.2.0 node. -/
def envMixedNodes : Env :=
  { envOk with
    hasGetClusterVersion := true
    versionResult := fun _ => Except.ok ["v7.5.0", "v7.2.0"] }

/-- The empty starting state of a process run. -/
def st0 : St := ⟨[], [], []⟩

/-- A config-file stat group with inline credentials for cluster c1, a
fixed 30-second interval and the single stat s1. -/
def reqG30c1 : FileRequest :=
  ⟨some [ClusterSpec.withCreds "u" "pw" "c1" none], UParam.fixed 30, ["s1"]⟩

/-- A config-file stat group with inline credentials for cluster c2, a
fixed 30-second interval and the single stat s1. -/
def reqG30c2 : FileRequest :=
  ⟨some [ClusterSpec.withCreds "u" "pw" "c2" none], UParam.fixed 30, ["s1"]⟩

/-- First configuration request of the two-request run for the bucket-key
claim. -/
def runBucketA : Res (List StatsConfig) :=
  configureStatGroupsViaFile envOk 30 reqG30c1 [] [] st0

/-- Second configuration request of the two-request run for the bucket-key
claim, continuing from the first request's daemon and state. -/
def runBucketB : Res (List StatsConfig) :=
  configureStatGroupsViaFile envOk 30 reqG30c2 [] (resDaemon runBucketA) (resState runBucketA)

/-- A config-file stat group whose stats value is empty (an empty stat-key
list) at a fixed 60-second interval. -/
def reqEmptyStats : FileRequest :=
  ⟨some [ClusterSpec.withCreds "u" "pw" "c1" none], UParam.fixed 60, []⟩

/-- Run of the empty-stat-list config-file request. -/
def runEmptyStats : Res (List StatsConfig) :=
  configureStatGroupsViaFile envOk 30 reqEmptyStats [] [] st0

/-- A config-file stat group with inline credentials for cluster c1 at a
fixed 60-second interval. -/
def reqCredsC1 : FileRequest :=
  ⟨some [ClusterSpec.withCreds "u" "pw" "c1" none], UParam.fixed 60, ["s1"]⟩

/-- First of two identical config-file requests naming cluster c1 with
inline credentials. -/
def runCredsA : Res (List StatsConfig) :=
  configureStatGroupsViaFile envOk 30 reqCredsC1 [] [] st0

/-- Second of two identical config-file requests naming cluster c1 with
inline credentials, continuing from the first request's daemon and state. -/
def runCredsB : Res (List StatsConfig) :=
  configureStatGroupsViaFile envOk 30 reqCredsC1 [] (resDaemon runCredsA) (resState runCredsA)

/-- A below-floor CLI-style stat-group configuration used as a witness run:
requested interval 10 against the floor 30. -/
def runLowInterval : Res (List StatsConfig) :=
  configureStatGroup envOk 30 10 ["c1"] ["s1"] [] st0

/-- An at-floor stat-group configuration used as a witness run. -/
def runAtFloor : Res (List StatsConfig) :=
  configureStatGroup envOk 30 60 ["c1"] ["s1"] [] st0

/-- A state whose auth cache already holds a complete credential for c1. -/
def stCached : St :=
  ⟨[("c1", ⟨some "u", some "pw", some false⟩)], [], []⟩

/-- A config-file stat group without a clusters option. -/
def reqNoClusters : FileRequest := ⟨none, UParam.fixed 30, ["s1"]⟩

/-- CLI arguments whose clusters string is empty. -/
def argsNoClusters : CliArgs := ⟨"", ["s1"], [30]⟩

/-- CLI arguments containing an empty stat-group string. -/
def argsEmptyGroup : CliArgs := ⟨"c1", [""], [30]⟩

/-- CLI arguments with no update intervals supplied. -/
def argsNoIntervals : CliArgs := ⟨"c1", ["s1"], []⟩

/-- CLI arguments with two stat groups but a single update interval. -/
def argsMismatch : CliArgs := ⟨"c1", ["s1", "s2"], [30]⟩

theorem dictGet_dictSet_self {β : Type} (l : List (String × β)) (k : String) (v : β) :
    dictGet (dictSet l k v) k = some v := by
  induction l with
  | nil => simp [dictSet, dictGet]
  | cons kv rest ih =>
    obtain ⟨k2, v2⟩ := kv
    by_cases h : k2 = k
    · simp [dictSet, dictGet, h]
    · simp [dictSet, dictGet, h, ih]

theorem dictGet_dictSet_ne {β : Type} (l : List (String × β)) (k a : String) (v : β)
    (h : a ≠ k) : dictGet (dictSet l k v) a = dictGet l a := by
  have hk : ¬ (k = a) := fun hh => h hh.symm
  induction l with
  | nil => simp [dictSet, dictGet, hk]
  | cons kv rest ih =>
    obtain ⟨k2, v2⟩ := kv
    by_cases h2 : k2 = k
    · subst h2
      simp [dictSet, dictGet, hk]
    · simp [dictSet, dictGet, h2, ih]

theorem foldl_min_nonneg (l : List StatPolicy) : ∀ a : Int, 0 ≤ a →
    (∀ q ∈ l, 0 ≤ q.interval) → 0 ≤ l.foldl (fun x q => min q.interval x) a := by
  induction l with
  | nil => intro a ha _; simpa using ha
  | cons p rest ih =>
    intro a ha hl
    simp only [List.foldl_cons]
    exact ih (min p.interval a) (le_min (hl p (by simp)) ha)
      (fun q hq => hl q (by simp [hq]))

theorem foldl_policyStep_eq_min (l : List StatPolicy) : ∀ a : Int, 0 ≤ a →
    (∀ q ∈ l, 0 ≤ q.interval) →
    l.foldl policyStep a = l.foldl (fun x q => min q.interval x) a := by
  induction l with
  | nil => intro a _ _; rfl
  | cons p rest ih =>
    intro a ha hl
    have hne : a ≠ -1 := by omega
    simp only [List.foldl_cons, policyStep, hne, if_false]
    exact ih (min p.interval a) (le_min (hl p (by simp)) ha)
      (fun q hq => hl q (by simp [hq]))

theorem foldl_min_interval_comm (l : List StatPolicy) : ∀ a b : Int,
    l.foldl (fun x q => min q.interval x) (min a b) =
      min a (l.foldl (fun x q => min q.interval x) b) := by
  induction l with
  | nil => intro a b; rfl
  | cons p rest ih =>
    intro a b
    simp only [List.foldl_cons, min_left_comm p.interval a b, ih]

/-- Claim C1 counterexample: for the stat metadata with defaultCacheTime 1
and a single policy of interval 100, at multiplier 1 the code resolves the
interval to 2 (the cache-time candidate (1+1)*1 participates in the
minimum over the policies), while the spec's rule (smallest policy
interval times multiplier) demands 100; the policy minimum therefore does
not supersede the cache-time candidate. -/
theorem c1_counterexample :
    computeStatInterval ⟨"s", some 1, [⟨"pol", 100⟩]⟩ 1 = 2 ∧
    resolveIntervalSpec ⟨"s", some 1, [⟨"pol", 100⟩]⟩ 1 = 100 ∧
    (2 : Int) ≠ 100 := by decide

/-- Claim C1 (amended): for stat metadata with a non-empty policies list
(all policy intervals nonnegative, multiplier at least 1, nonnegative
cache time), the resolved interval is the minimum of the policy intervals
multiplied by the multiplier only when defaultCacheTime is absent or zero;
when defaultCacheTime is truthy the already-multiplied cache-time
candidate (defaultCacheTime + 1) * multiplier joins the minimum and the
winning value is multiplied by the multiplier once more. -/
theorem c1_amended (m : StatMetadata) (mult : Int)
    (hpol : m.policies ≠ [])
    (hint : ∀ p ∈ m.policies, 0 ≤ p.interval)
    (hmult : 1 ≤ mult)
    (hdct : 0 ≤ m.default_cache_time.getD 0) :
    computeStatInterval m mult =
      (if cacheTimeTruthy m.default_cache_time then
          min ((m.default_cache_time.getD 0 + 1) * mult) (smallestPolicyInterval m.policies)
        else smallestPolicyInterval m.policies) * mult := by
  obtain ⟨p, rest, hps⟩ : ∃ p rest, m.policies = p :: rest := by
    cases hq : m.policies with
    | nil => exact absurd hq hpol
    | cons a l => exact ⟨a, l, rfl⟩
  have hp0 : 0 ≤ p.interval := hint p (by simp [hps])
  have hrest : ∀ q ∈ rest, 0 ≤ q.interval := fun q hq => hint q (by simp [hps, hq])
  have hsp : 0 ≤ smallestPolicyInterval (p :: rest) :=
    foldl_min_nonneg rest p.interval hp0 hrest
  have hm0 : (0 : Int) ≤ mult := by omega
  unfold computeStatInterval
  rw [hps]
  cases hc : cacheTimeTruthy m.default_cache_time with
  | false =>
    simp only [hc, Bool.false_eq_true, if_false, ne_eq, reduceCtorEq,
      not_false_eq_true, if_true, List.foldl_cons]
    have hstep : policyStep (-1) p = p.interval := by simp [policyStep]
    rw [hstep, foldl_policyStep_eq_min rest p.interval hp0 hrest]
    have hfold : rest.foldl (fun x q => min q.interval x) p.interval =
        smallestPolicyInterval (p :: rest) := rfl
    rw [hfold]
    have hne : ¬ (smallestPolicyInterval (p :: rest) * mult = -1) := by
      have := mul_nonneg hsp hm0
      omega
    simp [hne]
  | true =>
    have hct1 : 0 ≤ (m.default_cache_time.getD 0 + 1) * mult :=
      mul_nonneg (by omega) hm0
    simp only [hc, if_true, ne_eq, reduceCtorEq, not_false_eq_true,
      List.foldl_cons]
    have hne1 : (m.default_cache_time.getD 0 + 1) * mult ≠ -1 := by omega
    have hstep : policyStep ((m.default_cache_time.getD 0 + 1) * mult) p =
        min p.interval ((m.default_cache_time.getD 0 + 1) * mult) := by
      simp [policyStep, hne1]
    rw [hstep, foldl_policyStep_eq_min rest _ (le_min hp0 hct1) hrest,
      min_comm p.interval _, foldl_min_interval_comm rest]
    have hfold : rest.foldl (fun x q => min q.interval x) p.interval =
        smallestPolicyInterval (p :: rest) := rfl
    rw [hfold]
    have hne : ¬ (min ((m.default_cache_time.getD 0 + 1) * mult)
        (smallestPolicyInterval (p :: rest)) * mult = -1) := by
      have := mul_nonneg (le_min hct1 hsp) hm0
      omega
    simp [hne]

/-- Claim C1 witness: the amended statement evaluated at the spec's own
example (defaultCacheTime 9, policies of intervals 5 and 20, multiplier
2), where the resolved interval is min(20, 5) * 2 = 10. -/
theorem c1_amended_witness :
    (computeStatInterval ⟨"k", some 9, [⟨"a", 5⟩, ⟨"b", 20⟩]⟩ 2 =
      (if cacheTimeTruthy (StatMetadata.mk "k" (some 9) [⟨"a", 5⟩, ⟨"b", 20⟩]).default_cache_time then
          min (((StatMetadata.mk "k" (some 9) [⟨"a", 5⟩, ⟨"b", 20⟩]).default_cache_time.getD 0 + 1) * 2)
            (smallestPolicyInterval [⟨"a", 5⟩, ⟨"b", 20⟩])
        else smallestPolicyInterval [⟨"a", 5⟩, ⟨"b", 20⟩]) * 2) ∧
    computeStatInterval ⟨"k", some 9, [⟨"a", 5⟩, ⟨"b", 20⟩]⟩ 2 = 10 :=
  ⟨c1_amended ⟨"k", some 9, [⟨"a", 5⟩, ⟨"b", 20⟩]⟩ 2 (by decide) (by decide)
    (by decide) (by decide), by decide⟩

theorem versionScan_find (nodes : List String) : ∀ v : Int,
    versionScan nodes v =
      ((nodes.filterMap parseRelease).find? (fun x => decide (x < v))).getD v := by
  induction nodes with
  | nil => intro v; rfl
  | cons n rest ih =>
    intro v
    unfold versionScan
    cases hp : parseRelease n with
    | none => simp [List.filterMap_cons, hp, ih]
    | some nv =>
      simp only [List.filterMap_cons, hp]
      by_cases hlt : nv < v
      · simp [List.find?_cons, hlt]
      · simp [List.find?_cons, hlt, ih]

/-- Claim C3 counterexample: with an 8.0 SDK and a version query reporting
nodes v7.5.0 and v7.2.0 in that order, the resolved cluster version is 7.5
(75 tenths) because the scan stops at the first node below 8.0, while the
minimum across the reporting nodes is 7.2 (72 tenths). -/
theorem c3_counterexample :
    queryClusterVersion envMixedNodes "c1" st0 =
      Res.ok 75 (pushEvent st0 (Event.queryVersion "c1")) ∧
    parseRelease "v7.2.0" = some 72 ∧ (72 : Int) < 75 := by decide

/-- Claim C3 (amended): when a version query returns node-level detail, the
cluster's resolved version is the FIRST reported node version strictly
below 8.0 (in report order), or 8.0 when no node is below 8.0 — not in
general the minimum across all nodes; on the spec's example, whose oldest
node reports first, this still resolves to 7.2. -/
theorem c3_amended :
    (∀ nodes : List String, versionFromNodes nodes =
      ((nodes.filterMap parseRelease).find? (fun x => decide (x < 80))).getD 80) ∧
    versionFromNodes ["v7.2.0", "v8.1.0", "v8.0.3"] = 72 :=
  ⟨fun nodes => versionScan_find nodes 80, by decide⟩

theorem promptMissing_events (env : Env) (c : String) (cur : Option AuthTriple) :
    ∀ e ∈ (promptMissing env c cur).2,
      e = Event.promptUser c ∨ e = Event.promptPassword c ∨ e = Event.promptSSL c := by
  rcases cur with _ | ⟨u0, p0, v0⟩
  · simp [promptMissing]
  · rcases u0 with _ | u <;> rcases p0 with _ | p <;> rcases v0 with _ | v <;>
      simp [promptMissing]

theorem addClusterAuthData_complete (env : Env) (a u p : String) (v : Bool) (s : St) :
    addClusterAuthData env a (some u) (some p) (some v) s =
      (if env.probeOk a then
        Res.ok ()
          { authData := dictSet s.authData a ⟨some u, some p, some v⟩,
            namesVersions := s.namesVersions,
            trace := s.trace ++ [Event.probe a] }
      else
        Res.fatal
          { authData := dictSet s.authData a ⟨some u, some p, some v⟩,
            namesVersions := s.namesVersions,
            trace := s.trace ++ [Event.probe a] }) := by
  simp only [addClusterAuthData, verifyClusterAuthData, pushEvent]

theorem getClusterAuthDataPrompt_eq (env : Env) (c : String) (cur : Option AuthTriple)
    (s : St) :
    getClusterAuthDataPrompt env c cur s =
      (if env.probeOk c then
        Res.ok (promptMissing env c cur).1
          { authData := dictSet s.authData c ⟨some (promptMissing env c cur).1.1,
              some (promptMissing env c cur).1.2.1, some (promptMissing env c cur).1.2.2⟩,
            namesVersions := s.namesVersions,
            trace := s.trace ++ (promptMissing env c cur).2 ++ [Event.probe c] }
      else
        Res.fatal
          { authData := dictSet s.authData c ⟨some (promptMissing env c cur).1.1,
              some (promptMissing env c cur).1.2.1, some (promptMissing env c cur).1.2.2⟩,
            namesVersions := s.namesVersions,
            trace := s.trace ++ (promptMissing env c cur).2 ++ [Event.probe c] }) := by
  simp only [getClusterAuthDataPrompt]
  rw [addClusterAuthData_complete]
  by_cases hp : env.probeOk c
  · simp only [if_pos hp]
  · simp only [if_neg hp]

theorem getClusterAuthData_cases (env : Env) (c : String) (s : St) :
    (∃ u p v, dictGet s.authData c = some ⟨some u, some p, some v⟩ ∧
      getClusterAuthData env c s = Res.ok (u, p, v) s) ∨
    getClusterAuthData env c s =
      getClusterAuthDataPrompt env c (dictGet s.authData c) s := by
  rcases hd : dictGet s.authData c with _ | ⟨u0, p0, v0⟩
  · right; simp [getClusterAuthData, hd]
  · rcases u0 with _ | u <;> rcases p0 with _ | p <;> rcases v0 with _ | v <;>
      first
        | (left; exact ⟨_, _, _, rfl, by simp [getClusterAuthData, hd]⟩)
        | (right; simp [getClusterAuthData, hd])

theorem getClusterAuthData_ok (env : Env) (c : String) (s : St)
    (r : String × String × Bool) (s1 : St)
    (h : getClusterAuthData env c s = Res.ok r s1) :
    ∃ t, s1.trace = s.trace ++ t ∧ noEmitNoWarn t ∧
      s1.namesVersions = s.namesVersions ∧
      (∀ a, completeAuth s1.authData a → completeAuth s.authData a ∨ Event.probe a ∈ t) ∧
      credentialResolved s t c := by
  rcases getClusterAuthData_cases env c s with ⟨u, p, v, hget, heq⟩ | heq
  · rw [heq] at h
    injection h with h1 h2
    subst h2
    exact ⟨[], by simp, by simp [noEmitNoWarn], rfl, fun a ha => Or.inl ha,
      Or.inl ⟨u, p, v, hget⟩⟩
  · rw [heq, getClusterAuthDataPrompt_eq] at h
    by_cases hp : env.probeOk c
    · rw [if_pos hp] at h
      injection h with h1 h2
      subst h2
      refine ⟨(promptMissing env c (dictGet s.authData c)).2 ++ [Event.probe c],
        by simp, ?_, rfl, ?_, Or.inr (by simp)⟩
      · intro e he
        rcases List.mem_append.mp he with he1 | he2
        · rcases promptMissing_events env c _ e he1 with h3 | h3 | h3 <;> subst h3 <;>
            exact ⟨fun sc => by simp, fun i => by simp⟩
        · have h3 : e = Event.probe c := by simpa using he2
          subst h3
          exact ⟨fun sc => by simp, fun i => by simp⟩
      · intro a ha
        by_cases hac : a = c
        · subst hac
          right; simp
        · left
          obtain ⟨u2, p2, v2, hd2⟩ := ha
          rw [dictGet_dictSet_ne _ _ _ _ hac] at hd2
          exact ⟨u2, p2, v2, hd2⟩
    · rw [if_neg hp] at h
      exact absurd h (by simp)

theorem queryClusterName_eq (env : Env) (c : String) (s : St) :
    ∃ n, queryClusterName env c s = Res.ok n (pushEvent s (Event.queryName c)) := by
  unfold queryClusterName
  cases env.nameResult c <;> exact ⟨_, rfl⟩

theorem queryClusterVersion_eq (env : Env) (c : String) (s : St) :
    ∃ ver, queryClusterVersion env c s = Res.ok ver (pushEvent s (Event.queryVersion c)) := by
  unfold queryClusterVersion
  by_cases h : env.hasGetClusterVersion
  · rw [if_pos h]
    cases env.versionResult c <;> exact ⟨_, rfl⟩
  · rw [if_neg h]
    exact ⟨72, rfl⟩

theorem resolveIdentity_ok (env : Env) (c : String) (s : St) (nv : String × Int) (s2 : St)
    (h : resolveIdentity env c s = Res.ok nv s2) :
    ∃ t, s2.trace = s.trace ++ t ∧ noEmitNoWarn t ∧
      s2.authData = s.authData ∧
      (∀ a nv2, dictGet s2.namesVersions a = some nv2 →
        (∃ nv3, dictGet s.namesVersions a = some nv3) ∨
          (Event.queryName a ∈ t ∧ Event.queryVersion a ∈ t)) ∧
      identityResolved s t c := by
  unfold resolveIdentity at h
  rcases hnv : dictGet s.namesVersions c with _ | ⟨n, ver⟩
  · rw [hnv] at h
    simp only [] at h
    obtain ⟨nm, hqn⟩ := queryClusterName_eq env c s
    rw [hqn] at h
    simp only [] at h
    obtain ⟨ver, hqv⟩ := queryClusterVersion_eq env c (pushEvent s (Event.queryName c))
    rw [hqv] at h
    simp only [] at h
    injection h with h1 h2
    subst h2
    refine ⟨[Event.queryName c, Event.queryVersion c], by simp [pushEvent], ?_, rfl, ?_,
      Or.inr ⟨by simp, by simp⟩⟩
    · intro e he
      have h3 : e = Event.queryName c ∨ e = Event.queryVersion c := by simpa using he
      rcases h3 with h3 | h3 <;> subst h3 <;>
        exact ⟨fun sc => by simp, fun i => by simp⟩
    · intro a nv2 hnv2
      simp only [pushEvent] at hnv2
      by_cases hac : a = c
      · subst hac
        right
        exact ⟨by simp, by simp⟩
      · left
        rw [dictGet_dictSet_ne _ _ _ _ hac] at hnv2
        exact ⟨nv2, hnv2⟩
  · rw [hnv] at h
    simp only [] at h
    injection h with h1 h2
    subst h2
    exact ⟨[], by simp, by simp [noEmitNoWarn], rfl,
      fun a nv2 hnv2 => Or.inl ⟨nv2, hnv2⟩, Or.inl ⟨(n, ver), hnv⟩⟩

theorem buildClusterConfigs_ok (env : Env) (cl : List String) : ∀ (s : St)
    (cfgs : List ClusterConfig) (s9 : St),
    buildClusterConfigs env cl s = Res.ok cfgs s9 →
    ∃ t, s9.trace = s.trace ++ t ∧ noEmitNoWarn t ∧
      cfgs.map ClusterConfig.address = cl ∧
      (∀ a, completeAuth s9.authData a → completeAuth s.authData a ∨ Event.probe a ∈ t) ∧
      (∀ a nv, dictGet s9.namesVersions a = some nv →
        (∃ nv2, dictGet s.namesVersions a = some nv2) ∨
          (Event.queryName a ∈ t ∧ Event.queryVersion a ∈ t)) ∧
      (∀ cc ∈ cfgs, credentialResolved s t cc.address ∧ identityResolved s t cc.address) := by
  induction cl with
  | nil =>
    intro s cfgs s9 h
    unfold buildClusterConfigs at h
    injection h with h1 h2
    subst h2
    subst h1
    exact ⟨[], by simp, by simp [noEmitNoWarn], rfl, fun a ha => Or.inl ha,
      fun a nv hnv => Or.inl ⟨nv, hnv⟩, by simp⟩
  | cons c rest ih =>
    intro s cfgs s9 h
    unfold buildClusterConfigs at h
    rcases hga : getClusterAuthData env c s with ⟨⟨u, p, v⟩, s1⟩ | s1
    · rw [hga] at h
      simp only [] at h
      rcases hid : resolveIdentity env c s1 with ⟨⟨n, ver⟩, s2⟩ | s2
      · rw [hid] at h
        simp only [] at h
        rcases hrec : buildClusterConfigs env rest s2 with ⟨cfgs2, s3⟩ | s3
        · rw [hrec] at h
          simp only [] at h
          injection h with h1 h2
          subst h2
          subst h1
          obtain ⟨t1, htr1, hnw1, hnv1, hauth1, hcred1⟩ :=
            getClusterAuthData_ok env c s _ _ hga
          obtain ⟨t2, htr2, hnw2, had2, hnvt2, hident2⟩ :=
            resolveIdentity_ok env c s1 _ _ hid
          obtain ⟨t3, htr3, hnw3, haddr3, hauth3, hnvt3, hres3⟩ := ih s2 cfgs2 s3 hrec
          have hm1 : ∀ e ∈ t1, e ∈ t1 ++ t2 ++ t3 :=
            fun e he => List.mem_append_left _ (List.mem_append_left _ he)
          have hm2 : ∀ e ∈ t2, e ∈ t1 ++ t2 ++ t3 :=
            fun e he => List.mem_append_left _ (List.mem_append_right _ he)
          have hm3 : ∀ e ∈ t3, e ∈ t1 ++ t2 ++ t3 :=
            fun e he => List.mem_append_right _ he
          refine ⟨t1 ++ t2 ++ t3, ?_, ?_, ?_, ?_, ?_, ?_⟩
          · rw [htr3, htr2, htr1]
            simp [List.append_assoc]
          · intro e he
            rcases List.mem_append.mp he with he12 | he3
            · rcases List.mem_append.mp he12 with he1 | he2
              · exact hnw1 e he1
              · exact hnw2 e he2
            · exact hnw3 e he3
          · simp [haddr3]
          · intro a ha
            rcases hauth3 a ha with h4 | h4
            · rw [had2] at h4
              rcases hauth1 a h4 with h5 | h5
              · exact Or.inl h5
              · exact Or.inr (hm1 _ h5)
            · exact Or.inr (hm3 _ h4)
          · intro a nv0 hnv0
            rcases hnvt3 a nv0 hnv0 with h5 | h5
            · obtain ⟨nv2, h5⟩ := h5
              rcases hnvt2 a nv2 h5 with h6 | h6
              · obtain ⟨nv3, h6⟩ := h6
                rw [hnv1] at h6
                exact Or.inl ⟨nv3, h6⟩
              · exact Or.inr ⟨hm2 _ h6.1, hm2 _ h6.2⟩
            · exact Or.inr ⟨hm3 _ h5.1, hm3 _ h5.2⟩
          · intro cc hcc
            rcases List.mem_cons.mp hcc with hcc | hcc
            · subst hcc
              constructor
              · rcases hcred1 with h6 | h6
                · exact Or.inl h6
                · exact Or.inr (hm1 _ h6)
              · rcases hident2 with h6 | h6
                · obtain ⟨nv2, h6⟩ := h6
                  rw [hnv1] at h6
                  exact Or.inl ⟨nv2, h6⟩
                · exact Or.inr ⟨hm2 _ h6.1, hm2 _ h6.2⟩
            · obtain ⟨hcr, hir⟩ := hres3 cc hcc
              constructor
              · rcases hcr with h6 | h6
                · rw [had2] at h6
                  rcases hauth1 _ h6 with h7 | h7
                  · exact Or.inl h7
                  · exact Or.inr (hm1 _ h7)
                · exact Or.inr (hm3 _ h6)
              · rcases hir with h6 | h6
                · obtain ⟨nv2, h6⟩ := h6
                  rcases hnvt2 _ nv2 h6 with h7 | h7
                  · obtain ⟨nv3, h7⟩ := h7
                    rw [hnv1] at h7
                    exact Or.inl ⟨nv3, h7⟩
                  · exact Or.inr ⟨hm2 _ h7.1, hm2 _ h7.2⟩
                · exact Or.inr ⟨hm3 _ h6.1, hm3 _ h6.2⟩
        · rw [hrec] at h
          simp at h
      · rw [hid] at h
        simp at h
    · rw [hga] at h
      simp at h

theorem configureStatGroup_ok (env : Env) (minUI ui : Int) (cl sts : List String)
    (d : List StatsConfig) (s : St) (d1 : List StatsConfig) (s9 : St)
    (h : configureStatGroup env minUI ui cl sts d s = Res.ok d1 s9) :
    ∃ cfgs s2, buildClusterConfigs env cl s = Res.ok cfgs s2 ∧
      ((ui < minUI ∧ d1 = d ++ [⟨cfgs, sts, minUI⟩] ∧
          s9 = pushEvent (pushEvent s2 (Event.warnLowInterval ui))
            (Event.emit ⟨cfgs, sts, minUI⟩)) ∨
        (¬ ui < minUI ∧ d1 = d ++ [⟨cfgs, sts, ui⟩] ∧
          s9 = pushEvent s2 (Event.emit ⟨cfgs, sts, ui⟩))) := by
  unfold configureStatGroup at h
  rcases hb : buildClusterConfigs env cl s with ⟨cfgs, s2⟩ | s2
  · rw [hb] at h
    simp only [] at h
    by_cases hlt : ui < minUI
    · rw [if_pos hlt] at h
      simp only [] at h
      injection h with h1 h2
      subst h2
      subst h1
      exact ⟨cfgs, s2, rfl, Or.inl ⟨hlt, rfl, rfl⟩⟩
    · rw [if_neg hlt] at h
      simp only [] at h
      injection h with h1 h2
      subst h2
      subst h1
      exact ⟨cfgs, s2, rfl, Or.inr ⟨hlt, rfl, rfl⟩⟩
  · rw [hb] at h
    simp at h

theorem warnCount_eq_zero (t : List Event)
    (h : ∀ e ∈ t, ∀ i, e ≠ Event.warnLowInterval i) : warnCount t = 0 := by
  unfold warnCount
  rw [List.countP_eq_zero]
  intro e he
  cases e <;> first | exact fun _ => h _ he _ rfl | simp

theorem warnCount_append (t1 t2 : List Event) :
    warnCount (t1 ++ t2) = warnCount t1 + warnCount t2 := by
  simp [warnCount, List.countP_append]

theorem warnCount_warn (i : Int) : warnCount [Event.warnLowInterval i] = 1 := by
  simp [warnCount, List.countP_cons, List.countP_nil]

theorem warnCount_emit (sc : StatsConfig) : warnCount [Event.emit sc] = 0 := by
  simp [warnCount, List.countP_cons, List.countP_nil]

/-- Claim C5: whenever a stat-group request succeeds, the daemon receives
exactly one new group; if the requested interval is below the configured
floor, the emitted interval is the floor and exactly one low-interval
warning is added for the request; at or above the floor the interval is
emitted unchanged and no warning is added. -/
theorem c5_interval_floor (env : Env) (minUI ui : Int) (cl sts : List String)
    (d : List StatsConfig) (s : St) (d1 : List StatsConfig) (s9 : St)
    (h : configureStatGroup env minUI ui cl sts d s = Res.ok d1 s9) :
    ∃ sc : StatsConfig, d1 = d ++ [sc] ∧ sc.stats = sts ∧
      (ui < minUI → sc.update_interval = minUI ∧
        warnCount s9.trace = warnCount s.trace + 1) ∧
      (¬ ui < minUI → sc.update_interval = ui ∧
        warnCount s9.trace = warnCount s.trace) := by
  obtain ⟨cfgs, s2, hb, hcase⟩ := configureStatGroup_ok env minUI ui cl sts d s d1 s9 h
  obtain ⟨t, htr, hnw, _, _, _, _⟩ := buildClusterConfigs_ok env cl s cfgs s2 hb
  have hwt : warnCount s2.trace = warnCount s.trace := by
    rw [htr, warnCount_append, warnCount_eq_zero t (fun e he => (hnw e he).2)]
    omega
  rcases hcase with ⟨hlt, hd, hs⟩ | ⟨hlt, hd, hs⟩
  · refine ⟨⟨cfgs, sts, minUI⟩, hd, rfl, fun _ => ⟨rfl, ?_⟩, fun hn => absurd hlt hn⟩
    subst hs
    simp only [pushEvent]
    rw [warnCount_append, warnCount_append, hwt, warnCount_warn, warnCount_emit]
  · refine ⟨⟨cfgs, sts, ui⟩, hd, rfl, fun hy => absurd hy hlt, fun _ => ⟨rfl, ?_⟩⟩
    subst hs
    simp only [pushEvent]
    rw [warnCount_append, hwt, warnCount_emit]
    omega

/-- Claim C5 witness: a request at interval 10 against the floor 30 over
cluster c1 and stat s1 emits one group at interval 30 with exactly one
warning added. -/
theorem c5_witness :
    ∃ sc : StatsConfig, resDaemon runLowInterval = [] ++ [sc] ∧ sc.stats = ["s1"] ∧
      ((10 : Int) < 30 → sc.update_interval = 30 ∧
        warnCount (resState runLowInterval).trace = warnCount st0.trace + 1) ∧
      (¬ (10 : Int) < 30 → sc.update_interval = 10 ∧
        warnCount (resState runLowInterval).trace = warnCount st0.trace) :=
  c5_interval_floor envOk 30 10 ["c1"] ["s1"] [] st0 _ _ (by decide)

/-- Claim C9: whenever a stat-group request succeeds, its StatsConfig is
handed to the daemon in a single emission that comes after all resolution
events of the request, and every cluster of the emitted config had its
credential and its identity (name and version) resolved no later than
that prefix — either already cached when the request began or resolved by
events of the request before the emission. -/
theorem c9_resolution_before_emit (env : Env) (minUI ui : Int) (cl sts : List String)
    (d : List StatsConfig) (s : St) (d1 : List StatsConfig) (s9 : St)
    (h : configureStatGroup env minUI ui cl sts d s = Res.ok d1 s9) :
    ∃ t sc, d1 = d ++ [sc] ∧ s9.trace = s.trace ++ t ++ [Event.emit sc] ∧
      (∀ e ∈ t, ∀ x, e ≠ Event.emit x) ∧
      ∀ cc ∈ sc.cluster_configs,
        credentialResolved s t cc.address ∧ identityResolved s t cc.address := by
  obtain ⟨cfgs, s2, hb, hcase⟩ := configureStatGroup_ok env minUI ui cl sts d s d1 s9 h
  obtain ⟨t, htr, hnw, _, _, _, hres⟩ := buildClusterConfigs_ok env cl s cfgs s2 hb
  rcases hcase with ⟨hlt, hd, hs⟩ | ⟨hlt, hd, hs⟩
  · refine ⟨t ++ [Event.warnLowInterval ui], ⟨cfgs, sts, minUI⟩, hd, ?_, ?_, ?_⟩
    · subst hs
      simp [pushEvent, htr]
    · intro e he
      rcases List.mem_append.mp he with he1 | he2
      · exact (hnw e he1).1
      · intro x
        have h3 : e = Event.warnLowInterval ui := by simpa using he2
        subst h3
        simp
    · intro cc hcc
      obtain ⟨h1, h2⟩ := hres cc hcc
      exact ⟨Or.imp id (fun hm => List.mem_append_left _ hm) h1,
        Or.imp id (fun hm => ⟨List.mem_append_left _ hm.1, List.mem_append_left _ hm.2⟩) h2⟩
  · refine ⟨t, ⟨cfgs, sts, ui⟩, hd, ?_, fun e he => (hnw e he).1, hres⟩
    subst hs
    simp [pushEvent, htr]

/-- Claim C9 witness: a request at interval 60 over cluster c1 and stat s1
emits one group whose single cluster was fully resolved before the
emission. -/
theorem c9_witness :
    ∃ t sc, resDaemon runAtFloor = [] ++ [sc] ∧
      (resState runAtFloor).trace = st0.trace ++ t ++ [Event.emit sc] ∧
      (∀ e ∈ t, ∀ x, e ≠ Event.emit x) ∧
      ∀ cc ∈ sc.cluster_configs,
        credentialResolved st0 t cc.address ∧ identityResolved st0 t cc.address :=
  c9_resolution_before_emit envOk 30 60 ["c1"] ["s1"] [] st0 _ _ (by decide)

/-- Claim C8: when the display-name query raises an API error, identity
resolution does not abort: the query returns normally (configuration
continues) and the resolved display name is the raw cluster address
string. -/
theorem c8_name_fallback (env : Env) (a : String) (s : St)
    (h : env.nameResult a = Except.error ()) :
    queryClusterName env a s = Res.ok a (pushEvent s (Event.queryName a)) := by
  unfold queryClusterName
  rw [h]

/-- Claim C8 witness: with a failing display-name query, the name of
cluster c1 resolves to the address c1 itself and the call returns
normally. -/
theorem c8_witness :
    queryClusterName envNameFail "c1" st0 =
      Res.ok "c1" (pushEvent st0 (Event.queryName "c1")) :=
  c8_name_fallback envNameFail "c1" st0 rfl

/-- Claim C7: a failed credential probe is fatal, not retried, and no
daemon configuration follows: the probe itself appends exactly one probe
event and aborts; storing a complete credential for such an address
aborts the same way; and a config-file stat-group request whose first
cluster entry carries inline credentials for the failing address aborts
the whole configuration pass with that single probe as the only new event
and no group emitted. -/
theorem c7_probe_failure_fatal (env : Env) (a : String)
    (hfail : env.probeOk a = false) :
    (∀ s : St, verifyClusterAuthData env a s =
      Res.fatal (pushEvent s (Event.probe a))) ∧
    (∀ (u p : String) (v : Bool) (s : St),
      addClusterAuthData env a (some u) (some p) (some v) s =
        Res.fatal
          { authData := dictSet s.authData a ⟨some u, some p, some v⟩,
            namesVersions := s.namesVersions,
            trace := s.trace ++ [Event.probe a] }) ∧
    (∀ (minUI : Int) (u p : String) (specs : List ClusterSpec) (req : FileRequest)
      (global : List String) (d : List StatsConfig) (s : St),
      req.clusters = some (ClusterSpec.withCreds u p a none :: specs) →
      configureStatGroupsViaFile env minUI req global d s =
        Res.fatal
          { authData := dictSet s.authData a ⟨some u, some p, some false⟩,
            namesVersions := s.namesVersions,
            trace := s.trace ++ [Event.probe a] }) := by
  have hver : ∀ s : St, verifyClusterAuthData env a s =
      Res.fatal (pushEvent s (Event.probe a)) := by
    intro s
    simp [verifyClusterAuthData, hfail]
  have hadd : ∀ (u p : String) (v : Bool) (s : St),
      addClusterAuthData env a (some u) (some p) (some v) s =
        Res.fatal
          { authData := dictSet s.authData a ⟨some u, some p, some v⟩,
            namesVersions := s.namesVersions,
            trace := s.trace ++ [Event.probe a] } := by
    intro u p v s
    rw [addClusterAuthData_complete, if_neg (by simp [hfail])]
  refine ⟨hver, hadd, ?_⟩
  intro minUI u p specs req global d s hreq
  unfold configureStatGroupsViaFile
  rw [hreq]
  simp only []
  unfold processConfigFileClusters
  unfold processClusterSpec
  simp only [Option.getD]
  rw [hadd u p false s]

/-- Claim C7 witness: against a world whose probe fails, the probe call,
the credential store and a whole config-file request for cluster c1 all
abort fatally with a single probe event recorded. -/
theorem c7_witness :
    (verifyClusterAuthData envProbeFail "c1" st0 =
      Res.fatal (pushEvent st0 (Event.probe "c1"))) ∧
    (addClusterAuthData envProbeFail "c1" (some "u") (some "pw") (some false) st0 =
      Res.fatal
        { authData := dictSet st0.authData "c1" ⟨some "u", some "pw", some false⟩,
          namesVersions := st0.namesVersions,
          trace := st0.trace ++ [Event.probe "c1"] }) ∧
    (configureStatGroupsViaFile envProbeFail 30 reqCredsC1 [] [] st0 =
      Res.fatal
        { authData := dictSet st0.authData "c1" ⟨some "u", some "pw", some false⟩,
          namesVersions := st0.namesVersions,
          trace := st0.trace ++ [Event.probe "c1"] }) :=
  ⟨(c7_probe_failure_fatal envProbeFail "c1" rfl).1 st0,
    (c7_probe_failure_fatal envProbeFail "c1" rfl).2.1 "u" "pw" false st0,
    (c7_probe_failure_fatal envProbeFail "c1" rfl).2.2 30 "u" "pw" [] reqCredsC1 [] [] st0 rfl⟩

/-- Claim C6 counterexample: two successive config-file stat-group requests
both carry inline credentials for cluster c1. After the first request the
complete credential for c1 is cached, yet processing the second request
stores the inline credential again and re-runs the auth probe: the probe
for c1 occurs twice in the same process run. -/
theorem c6_counterexample :
    dictGet (resState runCredsA).authData "c1" =
      some ⟨some "u", some "pw", some false⟩ ∧
    resIsOk runCredsB = true ∧
    probeCount (resState runCredsB).trace "c1" = 2 := by decide

/-- Claim C6 (amended): credential resolution through the credential lookup
(_get_cluster_auth_data) never prompts or probes when the cached entry is
complete — it returns the cached triple with the state unchanged; but a
config-file stat-group request that re-supplies inline credentials for an
already-cached address re-invokes _add_cluster_auth_data, which re-runs
the auth probe, so the probe is not limited to once per address per run. -/
theorem c6_amended (env : Env) (a : String) (s : St) (u p : String) (v : Bool)
    (h : dictGet s.authData a = some ⟨some u, some p, some v⟩) :
    getClusterAuthData env a s = Res.ok (u, p, v) s := by
  simp [getClusterAuthData, h]

/-- Claim C6 witness: with a complete credential for c1 cached, the lookup
returns it with no new event and no state change. -/
theorem c6_witness :
    getClusterAuthData envOk "c1" stCached = Res.ok ("u", "pw", false) stCached :=
  c6_amended envOk "c1" stCached "u" "pw" false (by decide)

/-- Claim C2 counterexample: the spec's own example run — stat group A over
cluster c1 and stat s1, then stat group B over cluster c2 and stat s1,
both at interval 30 — produces TWO stat groups at interval 30 handed to
the daemon (one with clusters numbering c1 only, one with c2 only), not a
single merged bucket: each request builds its update_intervals dict
afresh, so an interval value is not a unique bucket key across requests. -/
theorem c2_counterexample :
    resIsOk runBucketB = true ∧
    (resDaemon runBucketB).map (fun sc => sc.update_interval) = [30, 30] ∧
    (resDaemon runBucketB).map
      (fun sc => sc.cluster_configs.map ClusterConfig.address) = [["c1"], ["c2"]] ∧
    (resDaemon runBucketB).map (fun sc => sc.stats) = [["s1"], ["s1"]] := by decide

theorem bucketKeys_bucketAdd (b : Buckets) (ct : Int) (c st : String) :
    bucketKeys (bucketAdd b ct c st) =
      if ct ∈ bucketKeys b then bucketKeys b else bucketKeys b ++ [ct] := by
  induction b with
  | nil => simp [bucketAdd, bucketKeys]
  | cons kv rest ih =>
    obtain ⟨k, cs, sts⟩ := kv
    simp only [bucketKeys] at ih ⊢
    by_cases hk : k = ct
    · subst hk
      simp [bucketAdd]
    · by_cases hmem : ct ∈ rest.map Prod.fst
      · simp [bucketAdd, hk, hmem, Ne.symm hk, ih]
      · simp [bucketAdd, hk, hmem, Ne.symm hk, ih]

theorem bucketAdd_nodup (b : Buckets) (ct : Int) (c st : String)
    (h : (bucketKeys b).Nodup) : (bucketKeys (bucketAdd b ct c st)).Nodup := by
  rw [bucketKeys_bucketAdd]
  by_cases hmem : ct ∈ bucketKeys b
  · simpa [hmem] using h
  · simp only [hmem, if_false]
    rw [List.nodup_append]
    exact ⟨h, List.nodup_singleton ct, by simpa using hmem⟩

theorem bucketCluster_nodup (mult : Int) (c : String) (metas : List StatMetadata) :
    ∀ b : Buckets, (bucketKeys b).Nodup →
      (bucketKeys (bucketCluster mult c metas b)).Nodup := by
  induction metas with
  | nil => intro b h; exact h
  | cons m rest ih =>
    intro b h
    simp only [bucketCluster, List.foldl_cons] at ih ⊢
    exact ih _ (bucketAdd_nodup _ _ _ _ h)

/-- Claim C2 (amended): within a single computed-mode stat-group request,
an interval value is a unique bucket key — starting from a dict with
pairwise-distinct interval keys, the dict built by
_compute_stat_group_update_intervals again has pairwise-distinct interval
keys (every (cluster, stat) pair resolving to an existing interval is
merged into that bucket, never duplicated); across separate requests the
dict is rebuilt afresh, so equal intervals from two requests yield two
emitted groups (see the counterexample). -/
theorem c2_amended (env : Env) (mult : Int) (cl sn : List String) :
    ∀ (ui : Buckets) (s : St) (ui2 : Buckets) (s2 : St),
      (bucketKeys ui).Nodup →
      computeStatGroupUpdateIntervals env mult cl sn ui s = Res.ok ui2 s2 →
      (bucketKeys ui2).Nodup := by
  induction cl with
  | nil =>
    intro ui s ui2 s2 hn h
    unfold computeStatGroupUpdateIntervals at h
    injection h with h1 h2
    subst h1
    exact hn
  | cons c rest ih =>
    intro ui s ui2 s2 hn h
    unfold computeStatGroupUpdateIntervals at h
    rcases hq : queryStatsMetadata env c sn s with ⟨metas, s1⟩ | s1
    · rw [hq] at h
      simp only [] at h
      exact ih _ _ _ _ (bucketCluster_nodup mult c metas ui hn) h
    · rw [hq] at h
      simp at h

/-- Claim C2 witness: one computed-mode request over cluster c1 and stats
s1 and s2 (both resolving to interval 1) yields a single bucket keyed by
interval 1 holding both stats, with distinct bucket keys. -/
theorem c2_witness : (bucketKeys [(1, (["c1"], ["s1", "s2"]))]).Nodup :=
  c2_amended envOk 1 ["c1"] ["s1", "s2"] [] st0 [(1, (["c1"], ["s1", "s2"]))]
    ⟨[("c1", ⟨some "pu", some "pp", some true⟩)], [],
      [Event.promptUser "c1", Event.promptPassword "c1", Event.promptSSL "c1",
        Event.probe "c1", Event.queryMetadata "c1"]⟩ (by decide) (by decide)

/-- Claim C4 counterexample: a config-file stat group whose stats value is
empty (zero stat keys) at a fixed interval is NOT rejected: the run
returns normally, network calls are made (the auth probe for c1 appears
in the trace), and a stat group with an empty stat-key list is emitted to
the daemon. -/
theorem c4_counterexample :
    resIsOk runEmptyStats = true ∧
    (resDaemon runEmptyStats).map (fun sc => sc.stats) = [[]] ∧
    Event.probe "c1" ∈ (resState runEmptyStats).trace := by decide

theorem cliGroupsLoop_empty_group (env : Env) (minUI : Int) :
    ∀ (pairs : List (String × Int)) (cl : List String) (d : List StatsConfig) (s : St),
      (∃ ui, ("", ui) ∈ pairs) →
      ∃ s2, cliGroupsLoop env minUI pairs cl d s = Res.fatal s2 := by
  intro pairs
  induction pairs with
  | nil =>
    intro cl d s hmem
    obtain ⟨ui, hmem⟩ := hmem
    simp at hmem
  | cons pr rest ih =>
    intro cl d s hmem
    obtain ⟨ui, hmem⟩ := hmem
    obtain ⟨sg, ui2⟩ := pr
    unfold cliGroupsLoop
    by_cases hsg : (pySplit sg ',').headD "" = ""
    · rw [if_pos hsg]
      exact ⟨s, rfl⟩
    · rw [if_neg hsg]
      have hmem2 : ∃ ui3, ("", ui3) ∈ rest := by
        rcases List.mem_cons.mp hmem with heq | hm
        · exfalso
          injection heq with h1 h2
          subst h1
          exact hsg rfl
        · exact ⟨ui, hm⟩
      rcases hc : configureStatGroup env minUI ui2 cl (pySplit sg ',') d s with ⟨d1, s1⟩ | s1
      · simp only []
        exact ih cl d1 s1 hmem2
      · exact ⟨s1, rfl⟩

/-- Claim C4 (amended): an empty cluster list is rejected fatally before
any network call in both modes (the state, hence the trace, is returned
unchanged), and an empty stat list is rejected fatally in CLI mode; in
config-file mode an empty stats value is not rejected and can emit a
group with zero stat keys (see the counterexample). -/
theorem c4_amended :
    (∀ (env : Env) (minUI : Int) (req : FileRequest) (d : List StatsConfig) (s : St),
      (req.clusters = none ∨ req.clusters = some []) →
      configureStatGroupsViaFile env minUI req [] d s = Res.fatal s) ∧
    (∀ (env : Env) (minUI : Int) (args : CliArgs) (d : List StatsConfig) (s : St),
      args.clusters = "" →
      configureStatGroupsViaCli env minUI args d s = Res.fatal s) ∧
    (∀ (env : Env) (minUI : Int) (args : CliArgs) (d : List StatsConfig) (s : St),
      "" ∈ args.stat_groups →
      ∃ s2, configureStatGroupsViaCli env minUI args d s = Res.fatal s2) := by
  refine ⟨?_, ?_, ?_⟩
  · intro env minUI req d s hcl
    rcases hcl with hcl | hcl <;>
      simp [configureStatGroupsViaFile, hcl, processConfigFileClusters, pyUnique]
  · intro env minUI args d s hcl
    unfold configureStatGroupsViaCli
    by_cases hlen : (effectiveUpdateIntervals minUI args.update_intervals).length ≠
        args.stat_groups.length
    · rw [if_pos hlen]
    · rw [if_neg hlen, hcl]
      have hsplit : pySplit "" ',' = [""] := rfl
      rw [hsplit]
      simp
  · intro env minUI args d s hmem
    unfold configureStatGroupsViaCli
    by_cases hlen : (effectiveUpdateIntervals minUI args.update_intervals).length ≠
        args.stat_groups.length
    · rw [if_pos hlen]
      exact ⟨s, rfl⟩
    · rw [if_neg hlen]
      by_cases hcl : (pySplit args.clusters ',').headD "" = ""
      · rw [if_pos hcl]
        exact ⟨s, rfl⟩
      · rw [if_neg hcl]
        apply cliGroupsLoop_empty_group
        have hle : args.stat_groups.length ≤
            (effectiveUpdateIntervals minUI args.update_intervals).length :=
          le_of_eq (not_not.mp hlen).symm
        have hzip : (args.stat_groups.zip
            (effectiveUpdateIntervals minUI args.update_intervals)).map Prod.fst =
            args.stat_groups :=
          List.map_fst_zip _ _ hle
        rw [← hzip] at hmem
        obtain ⟨pr, hpr, hfst⟩ := List.mem_map.mp hmem
        obtain ⟨sg, ui⟩ := pr
        simp only [] at hfst
        subst hfst
        exact ⟨ui, hpr⟩

/-- Claim C4 witness: a config-file request without clusters aborts with
the state unchanged; a CLI request with an empty clusters string aborts
with the state unchanged; a CLI request containing an empty stat-group
string aborts. -/
theorem c4_witness :
    configureStatGroupsViaFile envOk 30 reqNoClusters [] [] st0 = Res.fatal st0 ∧
    configureStatGroupsViaCli envOk 30 argsNoClusters [] st0 = Res.fatal st0 ∧
    ∃ s2, configureStatGroupsViaCli envOk 30 argsEmptyGroup [] st0 = Res.fatal s2 :=
  ⟨c4_amended.1 envOk 30 reqNoClusters [] st0 (Or.inl rfl),
    c4_amended.2.1 envOk 30 argsNoClusters [] st0 rfl,
    c4_amended.2.2 envOk 30 argsEmptyGroup [] st0 (by decide)⟩

/-- Claim C10: MIN_UPDATE_INTERVAL is 30 seconds; in CLI mode, supplying no
update intervals is the same as supplying the single interval equal to
the current minimum-interval floor; and whenever the number of update
intervals after this defaulting differs from the number of stat groups,
configuration aborts fatally with the state unchanged (before any
network call). -/
theorem c10_cli_defaults (env : Env) (minUI : Int) (args : CliArgs)
    (d : List StatsConfig) (s : St) :
    MIN_UPDATE_INTERVAL = 30 ∧
    (args.update_intervals = [] →
      effectiveUpdateIntervals minUI args.update_intervals = [minUI] ∧
      configureStatGroupsViaCli env minUI args d s =
        configureStatGroupsViaCli env minUI
          { args with update_intervals := [minUI] } d s) ∧
    ((effectiveUpdateIntervals minUI args.update_intervals).length ≠
        args.stat_groups.length →
      configureStatGroupsViaCli env minUI args d s = Res.fatal s) := by
  refine ⟨rfl, ?_, ?_⟩
  · intro hnil
    constructor
    · rw [hnil]
      rfl
    · simp [configureStatGroupsViaCli, effectiveUpdateIntervals, hnil]
  · intro hne
    unfold configureStatGroupsViaCli
    rw [if_pos hne]

/-- Claim C10 witness: with no intervals and one stat group the effective
interval list is the single floor value 30 and the run equals the run
with the explicit interval 30;  with one interval against two stat groups
the run aborts with the state unchanged. -/
theorem c10_witness :
    effectiveUpdateIntervals 30 ([] : List Int) = [30] ∧
    configureStatGroupsViaCli envOk 30 argsNoIntervals [] st0 =
      configureStatGroupsViaCli envOk 30
        { argsNoIntervals with update_intervals := [30] } [] st0 ∧
    configureStatGroupsViaCli envOk 30 argsMismatch [] st0 = Res.fatal st0 :=
  ⟨((c10_cli_defaults envOk 30 argsNoIntervals [] st0).2.1 rfl).1,
    ((c10_cli_defaults envOk 30 argsNoIntervals [] st0).2.1 rfl).2,
    (c10_cli_defaults envOk 30 argsMismatch [] st0).2.2 (by decide)⟩

end IsiDataInsights
